import Mathlib

/-
Verification of the sampling/aggregation engine of rjobtop (src/qexec/rjobtop.py),
a Slurm-job CPU/memory monitor.  Counters are shallowly embedded: Python ints
become Int/Nat, Python floats become ℚ (exact rational arithmetic standing in
for IEEE doubles), dicts keyed by pid become lists of ProcSample keyed by their
pid field, and the runtime environment (CLK_TCK, boot time, time.time(),
/proc/meminfo, the compiled-regex engine) is threaded explicitly through an Env
record.  A compiled regular expression is modelled as its search function
String → Bool (truthy result of re.Pattern.search).
-/

namespace Rjobtop

/-- Model of a compiled regular expression: its search function, true when
`regex.search(text)` returns a match (truthy). -/
abbrev Regex := String → Bool

/-- Runtime environment of the monitor: CLK_TCK, the cached boot time,
the wall clock read by time.time(), the /proc/meminfo MemTotal reading, and
the regex compiler (re.compile), which returns none when compilation raises. -/
structure Env where
  clk : ℚ
  bootTime : ℚ
  now : ℚ
  memTotal : Option Int
  compileRe : String → Option Regex

/-- One process's counters at one instant (dataclass ProcSample in the source). -/
structure ProcSample where
  pid : Int
  ppid : Int
  comm : String
  cpu_ticks : Int
  rss_bytes : Int
  vms_bytes : Int
  start_ticks : Int
  cmdline : String
  deriving DecidableEq

/-- One process's derived utilization for an interval (dataclass AggRow). -/
structure AggRow where
  pid : Int
  ppid : Int
  comm : String
  cpu_cores : ℚ
  rss_bytes : Int
  age_s : ℚ
  cmdline : String
  deriving DecidableEq

/-- The engine's output for one cycle (dataclass Aggregates). -/
structure Aggregates where
  now : ℚ
  jobid : Option String
  stepid : Option String
  pid_root : Option Int
  pid_count : Nat
  new_pids : Nat
  died_pids : Nat
  fork_rate_hz : ℚ
  total_cpu_cores : ℚ
  total_rss_bytes : Int
  cgroup_mem_bytes : Option Int
  cpu_hist : List ℚ
  mem_hist : List Int
  rows : List AggRow
  alloc_cpus : Option Int
  mem_total_bytes : Option Int
  deriving DecidableEq

/-- Python re word character, ASCII fragment of \w. -/
def isWordChar (c : Char) : Bool := c.isAlpha || c.isDigit || c == '_'

/-- Search for a five-character window "(", class char, qmid, ")", qend:
the semantics of the first two dangerous-indicator regexes of validate_regex,
which have a single \w between the parentheses. -/
def hasWin5 (p : Char → Bool) (qmid qend : Char) : List Char → Bool
  | [] => false
  | a :: rest =>
    (match rest with
     | b :: c :: d :: e :: _ =>
       a == '(' && p b && c == qmid && d == ')' && e == qend
     | _ => false) || hasWin5 p qmid qend rest

/-- Scan for the tail of an indicator match of shape [^)]+ qmid ")" qend.
The flag seen records whether at least one middle character (≠ close paren)
has been consumed; both continuing the middle run and closing the match are
tried, matching the existential semantics of re.search. -/
def midScan (qmid qend : Char) : List Char → Bool → Bool
  | [], _ => false
  | c :: rest, seen =>
    (seen && c == qmid &&
      (match rest with
       | d :: e :: _ => d == ')' && e == qend
       | _ => false)) ||
    (c != ')' && midScan qmid qend rest true)

/-- Search for an indicator match of shape "(" [^)]+ qmid ")" qend anywhere
in the list (the last four dangerous-indicator regexes of validate_regex). -/
def indMulti (qmid qend : Char) : List Char → Bool
  | [] => false
  | c :: rest => (c == '(' && midScan qmid qend rest false) || indMulti qmid qend rest

/-- Disjunction of the six dangerous_indicators of validate_regex, in source
order: (\w+)*, (\w*)*, (x+)+, (x*)*, (x+)*, (x*)+ with x = [^)]+. -/
def dangerousPattern (l : List Char) : Bool :=
  hasWin5 isWordChar '+' '*' l || hasWin5 isWordChar '*' '*' l ||
  indMulti '+' '+' l || indMulti '*' '*' l ||
  indMulti '+' '*' l || indMulti '*' '+' l

/-- validate_regex: empty pattern is valid; dangerous (ReDoS-prone) patterns
and patterns with more than 50 alternation bars are rejected; otherwise the
pattern is valid exactly when it compiles.  All failure paths return false
rather than raising. -/
def validate_regex (e : Env) (pattern : String) : Bool :=
  if pattern == "" then true
  else if dangerousPattern pattern.data then false
  else if pattern.data.count '|' > 50 then false
  else (e.compileRe pattern).isSome

/-- Dict lookup s.get(pid) on a sample keyed by the pid field. -/
def lookup (s : List ProcSample) (pid : Int) : Option ProcSample :=
  s.find? (fun p => p.pid == pid)

/-- Row filter of the aggregation loop: no regex keeps every row; otherwise
the regex must match the short name or the (nonempty) command line. -/
def rowMatch (regex : Option Regex) (p : ProcSample) : Bool :=
  match regex with
  | none => true
  | some r => r p.comm || (p.cmdline != "" && r p.cmdline)

/-- Per-process CPU of the aggregation loop:
(max(0, ticks(T1) - ticks(T0)) / CLK_TCK) / max(interval, 1e-6). -/
def coreEquivalents (e : Env) (interval : ℚ) (p1 p2 : ProcSample) : ℚ :=
  (((max 0 (p2.cpu_ticks - p1.cpu_ticks) : Int) : ℚ) / e.clk) / max interval (1/1000000)

/-- Process age of the aggregation loop: now - (bootTime + start_ticks/CLK_TCK). -/
def ageSeconds (e : Env) (p2 : ProcSample) : ℚ :=
  e.now - (e.bootTime + (p2.start_ticks : ℚ) / e.clk)

/-- The AggRow built by the aggregation loop for a diffable pid. -/
def mkAggRow (e : Env) (interval : ℚ) (p1 p2 : ProcSample) : AggRow :=
  { pid := p2.pid, ppid := p2.ppid, comm := p2.comm,
    cpu_cores := coreEquivalents e interval p1 p2, rss_bytes := p2.rss_bytes,
    age_s := ageSeconds e p2, cmdline := p2.cmdline }

/-- One iteration of the for-loop body of aggregate: the accumulator carries
(total_cpu, total_rss, rows); a pid absent from the first sample is skipped
entirely, otherwise totals always accumulate and the row is appended only
when the filter matches. -/
def aggStep (e : Env) (s1 : List ProcSample) (interval : ℚ) (regex : Option Regex)
    (acc : ℚ × Int × List AggRow) (p2 : ProcSample) : ℚ × Int × List AggRow :=
  match lookup s1 p2.pid with
  | none => acc
  | some p1 =>
    let rows :=
      if rowMatch regex p2 then acc.2.2 ++ [mkAggRow e interval p1 p2]
      else acc.2.2
    (acc.1 + coreEquivalents e interval p1 p2, acc.2.1 + p2.rss_bytes, rows)

/-- Stable insertion of a row into a list sorted by cpu_cores descending. -/
def insertRowDesc (x : AggRow) : List AggRow → List AggRow
  | [] => [x]
  | y :: ys => if y.cpu_cores ≤ x.cpu_cores then x :: y :: ys else y :: insertRowDesc x ys

/-- rows.sort(key=cpu_cores, reverse=True): a stable descending sort. -/
def sortRowsDesc (l : List AggRow) : List AggRow := l.foldr insertRowDesc []

/-- Regex resolution at the top of aggregate: a pre-compiled regex wins;
otherwise a truthy pattern is validated and compiled, with every failure
silently degrading to no filter. -/
def resolveRegex (e : Env) (pattern : Option String) (compiled : Option Regex) : Option Regex :=
  match compiled with
  | some r => some r
  | none =>
    match pattern with
    | some p => if p != "" && validate_regex e p then e.compileRe p else none
    | none => none

/-- Body of aggregate once the regex has been resolved: membership deltas on
the key sets, fork rate, the totals/rows fold over the second sample, and the
final snapshot record (fresh empty history deques, no cgroup reading). -/
def aggregateWithRegex (e : Env) (s1 s2 : List ProcSample) (interval : ℚ)
    (regex : Option Regex) : Aggregates :=
  let keys1 := (s1.map ProcSample.pid).dedup
  let keys2 := (s2.map ProcSample.pid).dedup
  let new_pids := (keys2.filter (fun k => decide (k ∉ keys1))).length
  let died_pids := (keys1.filter (fun k => decide (k ∉ keys2))).length
  let t := List.foldl (aggStep e s1 interval regex) (0, 0, []) s2
  { now := e.now, jobid := none, stepid := none, pid_root := none,
    pid_count := keys2.length, new_pids := new_pids, died_pids := died_pids,
    fork_rate_hz := (new_pids : ℚ) / max interval (1/1000000),
    total_cpu_cores := t.1, total_rss_bytes := t.2.1,
    cgroup_mem_bytes := none, cpu_hist := [], mem_hist := [],
    rows := sortRowsDesc t.2.2, alloc_cpus := none, mem_total_bytes := e.memTotal }

/-- aggregate(s1, s2, interval, pattern, compiled_regex): see source lines
546-586. -/
def aggregate (e : Env) (s1 s2 : List ProcSample) (interval : ℚ)
    (pattern : Option String) (compiled : Option Regex) : Aggregates :=
  aggregateWithRegex e s1 s2 interval (resolveRegex e pattern compiled)

/-- Memory figure printed by print_text_snapshot: the cgroup reading when
present, else the summed RSS. -/
def print_text_snapshot_mem_used (agg : Aggregates) : Int :=
  match agg.cgroup_mem_bytes with
  | some c => c
  | none => agg.total_rss_bytes

/-- Cgroup-sourced flag printed by print_text_snapshot. -/
def print_text_snapshot_cgroup_flag (agg : Aggregates) : Bool :=
  agg.cgroup_mem_bytes.isSome

/-- Memory figure of the curses memory bar in draw. -/
def draw_mem_used_bar (cg_mem : Option Int) (agg : Aggregates) : Int :=
  match cg_mem with
  | some c => c
  | none => agg.total_rss_bytes

/-- Memory-source label of the curses memory line in draw. -/
def draw_mem_source_label (cg_mem : Option Int) : String :=
  match cg_mem with
  | some _ => "[cgroup]"
  | none => "[sum RSS]"

/-- UIState._compile_pattern: compile and cache the pattern, or none when the
pattern is falsy, fails validation, or fails to compile. -/
def uistate_compile_pattern (e : Env) (pattern : Option String) : Option Regex :=
  match pattern with
  | some p => if p != "" && validate_regex e p then e.compileRe p else none
  | none => none

/-- Inputs of one interactive cycle that live outside the aggregation engine:
the cgroup toggle and detected (kind, path), the cgroup accounting file reader,
and the allocated/online CPU counts. -/
structure DrawInputs where
  useCgroupMem : Bool
  cgKindPath : Option (String × String)
  readCgMem : String × String → Option Int
  stateAllocCpus : Option Int
  osCpuCount : Option Int

/-- Python x or y on optional ints: y when x is None or 0. -/
def orTruthyInt (a b : Option Int) : Option Int :=
  match a with
  | some n => if n == 0 then b else some n
  | none => b

/-- One cycle body of the interactive loop (draw), from the two samples to the
snapshot handed to the renderer: interval clamped to at least 0.1, pattern and
cached compiled pattern dropped in show-all mode, aggregate called on the
shared code path, then alloc_cpus and the cgroup memory reading written into
the snapshot. -/
def draw_cycle_agg (e : Env) (di : DrawInputs) (showAll : Bool) (pattern : Option String)
    (s1 s2 : List ProcSample) (stateInterval : ℚ) : Aggregates :=
  let interval := max (1/10) stateInterval
  let pat := if showAll then none else pattern
  let compiled := if showAll then none else uistate_compile_pattern e pattern
  let agg := aggregate e s1 s2 interval pat compiled
  let cg_mem :=
    if di.useCgroupMem then
      match di.cgKindPath with
      | some kp => di.readCgMem kp
      | none => none
    else none
  { agg with alloc_cpus := orTruthyInt di.stateAllocCpus di.osCpuCount,
             cgroup_mem_bytes := cg_mem }

/-- Boolean list-prefix test. -/
def isPrefixB : List Char → List Char → Bool
  | [], _ => true
  | _ :: _, [] => false
  | a :: as, b :: bs => a == b && isPrefixB as bs

/-- Python substring containment needle in haystack. -/
def containsSub (needle : List Char) : List Char → Bool
  | [] => isPrefixB needle []
  | c :: rest => isPrefixB needle (c :: rest) || containsSub needle rest

/-- External system state read by the target resolver and the one-shot path:
the scontrol listpids query (already filtered to live pids by the source),
the /proc pid listing, per-pid cgroup-membership file contents (none when the
read raises), /proc/<pid> existence, the ppid read by parse_stat (none when
the process vanished), the SLURM environment variables, and the two sampling
instants of sample_procs. -/
structure Sys where
  scontrol : String → List Int
  allPids : List Int
  cgroupFile : Int → Option String
  procExists : Int → Bool
  statPpid : Int → Option Int
  envJob : Option String
  envStep : Option String
  sampleT0 : List Int → List ProcSample
  sampleT1 : List Int → List ProcSample

/-- ppid_map: pid → ppid for every live pid whose stat parses. -/
def ppid_map (sys : Sys) : List (Int × Int) :=
  sys.allPids.filterMap (fun pid => (sys.statPpid pid).map (fun pp => (pid, pp)))

/-- Children of x in the parent→children index. -/
def childrenOf (m : List (Int × Int)) (x : Int) : List Int :=
  (m.filter (fun q => q.2 == x)).map Prod.fst

/-- Worklist traversal of the children index collecting the descendant
closure; the fuel bounds the iteration count (each pid/edge enters the
worklist at most once, so ppid-map length + 1 iterations suffice). -/
def bfsDescend (m : List (Int × Int)) : Nat → List Int → List Int → List Int
  | 0, seen, _ => seen
  | _ + 1, seen, [] => seen
  | fuel + 1, seen, x :: rest =>
    if x ∈ seen then bfsDescend m fuel seen rest
    else bfsDescend m fuel (seen ++ [x]) (rest ++ childrenOf m x)

/-- descendants_of: empty when the root's /proc entry no longer exists,
otherwise the descendant closure of the root over the ppid snapshot,
with the root itself discarded when include_root is false. -/
def descendants_of (sys : Sys) (root_pid : Int) (include_root : Bool) : List Int :=
  if sys.procExists root_pid then
    let m := ppid_map sys
    let seen := bfsDescend m (m.length + 1) [] [root_pid]
    if include_root then seen else seen.filter (fun x => decide (x ≠ root_pid))
  else []

/-- Environment branch of resolve_target_pids: when SLURM_JOB_ID is truthy,
return the scontrol query result directly (no cgroup fallback on this path);
else empty. -/
def resolveTargetEnvPath (sys : Sys) : List Int :=
  match sys.envJob with
  | some ej =>
    if ej == "" then []
    else
      sys.scontrol
        (match sys.envStep with
         | some es => if es == "" then ej else ej ++ "." ++ es
         | none => ej)
  | none => []

/-- Job-id branch of resolve_target_pids: scontrol first, and when it returns
nothing, scan every live process's cgroup file for the job_<jobid> fragment. -/
def resolveTargetJobPath (sys : Sys) (jobid stepid : Option String) : List Int :=
  match jobid with
  | some j =>
    if j == "" then resolveTargetEnvPath sys
    else
      let query :=
        match stepid with
        | some st => if st == "" then j else j ++ "." ++ st
        | none => j
      let pids := sys.scontrol query
      if pids ≠ [] then pids
      else
        sys.allPids.filter (fun pid =>
          match sys.cgroupFile pid with
          | some txt => containsSub ("job_" ++ j).data txt.data
          | none => false)
  | none => resolveTargetEnvPath sys

/-- resolve_target_pids: pid subtree first (a truthy root pid), then the
job-id branch, then the SLURM environment branch, else empty. -/
def resolve_target_pids (sys : Sys) (jobid stepid : Option String)
    (pid_root : Option Int) : List Int :=
  match pid_root with
  | some r => if r == 0 then resolveTargetJobPath sys jobid stepid
              else descendants_of sys r true
  | none => resolveTargetJobPath sys jobid stepid

/-- show_job_summary_once: the one-shot cycle — resolve, sample twice around
the sleep, aggregate, print.  The result is the exit code paired with the
snapshot handed to print_text_snapshot (none when nothing was printed). -/
def show_job_summary_once (e : Env) (sys : Sys) (jobid stepid : Option String)
    (pid_root : Option Int) (pattern : Option String) (interval : ℚ) :
    Int × Option Aggregates :=
  let pidset := resolve_target_pids sys jobid stepid pid_root
  if pidset = [] then (2, none)
  else
    let s1 := sys.sampleT0 pidset
    let s2 := sys.sampleT1 pidset
    if s1 = [] ∨ s2 = [] then (3, none)
    else (0, some (aggregate e s1 s2 interval pattern none))

/-- Key set of a sample, as the finite set of pids present in it. -/
def keysFinset (s : List ProcSample) : Finset Int := (s.map ProcSample.pid).toFinset

/-! Concrete fixtures for the end-to-end scenarios and counterexamples. -/

/-- Environment with CLK_TCK = 100, boot time 0, wall clock 0, no MemTotal
reading, and a regex compiler that always fails. -/
def envA : Env :=
  { clk := 100, bootTime := 0, now := 0, memTotal := none, compileRe := fun _ => none }

/-- Environment whose regex compiler always succeeds with a match-everything
regex (the compiler is exercised only through success/failure here). -/
def envB : Env :=
  { clk := 100, bootTime := 0, now := 0, memTotal := none,
    compileRe := fun _ => some (fun _ => true) }

/-- Synthetic sample of pid 100 at T0 with 200 cumulative ticks. -/
def psT0 : ProcSample :=
  { pid := 100, ppid := 1, comm := "R", cpu_ticks := 200, rss_bytes := 0,
    vms_bytes := 0, start_ticks := 0, cmdline := "" }

/-- Synthetic sample of pid 100 at T1 with 280 cumulative ticks. -/
def psT1 : ProcSample :=
  { pid := 100, ppid := 1, comm := "R", cpu_ticks := 280, rss_bytes := 0,
    vms_bytes := 0, start_ticks := 0, cmdline := "" }

/-- Synthetic sample of a given pid with a given RSS and no CPU activity. -/
def psRss (pid rss : Int) : ProcSample :=
  { pid := pid, ppid := 1, comm := "R", cpu_ticks := 0, rss_bytes := rss,
    vms_bytes := 0, start_ticks := 0, cmdline := "" }

/-- System where scontrol always returns nothing, pid 42 is alive and its
cgroup file names job 777, and SLURM_JOB_ID=777 is set in the environment. -/
def sysB : Sys :=
  { scontrol := fun _ => [], allPids := [42],
    cgroupFile := fun pid => if pid == 42 then some "0::/slurm/uid_1/job_777/step_0" else none,
    procExists := fun _ => true, statPpid := fun _ => none,
    envJob := some "777", envStep := none,
    sampleT0 := fun _ => [], sampleT1 := fun _ => [] }

/-- System with a single live process 100 (child of pid 1) whose two sampling
instants return the synthetic pid-100 samples. -/
def sysC : Sys :=
  { scontrol := fun _ => [], allPids := [100],
    cgroupFile := fun _ => none, procExists := fun _ => true,
    statPpid := fun pid => if pid == 100 then some 1 else none,
    envJob := none, envStep := none,
    sampleT0 := fun _ => [psT0], sampleT1 := fun _ => [psT1] }

/-- System on which every /proc entry is gone. -/
def sysD : Sys :=
  { scontrol := fun _ => [], allPids := [],
    cgroupFile := fun _ => none, procExists := fun _ => false,
    statPpid := fun _ => none, envJob := none, envStep := none,
    sampleT0 := fun _ => [], sampleT1 := fun _ => [] }

/-- Interactive-cycle inputs where the cgroup toggle is on and the cgroup
accounting file reads 4 GiB. -/
def diC : DrawInputs :=
  { useCgroupMem := true, cgKindPath := some ("unified", "/slurm/uid_1/job_1"),
    readCgMem := fun _ => some 4294967296,
    stateAllocCpus := none, osCpuCount := some 8 }

/-- Snapshot whose cgroup reading is 4 GiB while the summed RSS is about
4.6 GiB (shared-page double counting). -/
def agg4GiB : Aggregates :=
  { now := 0, jobid := none, stepid := none, pid_root := none, pid_count := 3,
    new_pids := 0, died_pids := 0, fork_rate_hz := 0, total_cpu_cores := 0,
    total_rss_bytes := 4939212390, cgroup_mem_bytes := some 4294967296,
    cpu_hist := [], mem_hist := [], rows := [], alloc_cpus := none,
    mem_total_bytes := none }

/-! Helper lemmas about the aggregation fold, the row sort, and key-set
cardinalities.  They are shared by several claim theorems. -/

/-- The CPU and RSS totals accumulated by the aggregation fold: CPU is the sum
of core-equivalents over diffable pids, RSS the sum of rss(T1) over diffable
pids, each on top of the initial accumulator. -/
theorem foldl_aggStep_totals (e : Env) (s1 : List ProcSample) (i : ℚ)
    (regex : Option Regex) (l : List ProcSample) :
    ∀ acc : ℚ × Int × List AggRow,
      (List.foldl (aggStep e s1 i regex) acc l).1 =
        acc.1 + (l.filterMap (fun p2 => (lookup s1 p2.pid).map
          (fun p1 => coreEquivalents e i p1 p2))).sum ∧
      (List.foldl (aggStep e s1 i regex) acc l).2.1 =
        acc.2.1 + ((l.filter (fun p2 => (lookup s1 p2.pid).isSome)).map
          ProcSample.rss_bytes).sum := by
  induction l with
  | nil => intro acc; simp
  | cons p2 t ih =>
    intro acc
    cases h : lookup s1 p2.pid with
    | none =>
      have := ih acc
      simp only [List.foldl_cons, aggStep, h, List.filterMap_cons, List.filter_cons,
        Option.map_none', Option.isSome_none, Bool.false_eq_true, if_false] at this ⊢
      exact this
    | some p1 =>
      have := ih (acc.1 + coreEquivalents e i p1 p2, acc.2.1 + p2.rss_bytes,
        if rowMatch regex p2 then acc.2.2 ++ [mkAggRow e i p1 p2] else acc.2.2)
      simp only [List.foldl_cons, aggStep, h, List.filterMap_cons, List.filter_cons,
        Option.map_some', Option.isSome_some, if_true] at this ⊢
      refine ⟨?_, ?_⟩
      · rw [this.1]; simp [List.sum_cons]; ring
      · rw [this.2]; simp [List.sum_cons]; ring

/-- Rows only grow along the aggregation fold. -/
theorem foldl_aggStep_rows_mono (e : Env) (s1 : List ProcSample) (i : ℚ)
    (regex : Option Regex) (l : List ProcSample) :
    ∀ acc : ℚ × Int × List AggRow, ∃ ext,
      (List.foldl (aggStep e s1 i regex) acc l).2.2 = acc.2.2 ++ ext := by
  induction l with
  | nil => intro acc; exact ⟨[], by simp⟩
  | cons p2 t ih =>
    intro acc
    cases h : lookup s1 p2.pid with
    | none =>
      obtain ⟨ext, hext⟩ := ih acc
      exact ⟨ext, by simpa [List.foldl_cons, aggStep, h] using hext⟩
    | some p1 =>
      by_cases hm : rowMatch regex p2
      · obtain ⟨ext, hext⟩ := ih (acc.1 + coreEquivalents e i p1 p2,
          acc.2.1 + p2.rss_bytes, acc.2.2 ++ [mkAggRow e i p1 p2])
        refine ⟨mkAggRow e i p1 p2 :: ext, ?_⟩
        simp only [List.foldl_cons, aggStep, h, hm, if_true]
        simpa [List.append_assoc] using hext
      · obtain ⟨ext, hext⟩ := ih (acc.1 + coreEquivalents e i p1 p2,
          acc.2.1 + p2.rss_bytes, acc.2.2)
        refine ⟨ext, ?_⟩
        simp only [List.foldl_cons, aggStep, h, hm, if_false]
        exact hext

/-- Every row produced by the aggregation fold beyond the initial accumulator
is the row of some diffable pid of the folded list. -/
theorem foldl_aggStep_rows_mem (e : Env) (s1 : List ProcSample) (i : ℚ)
    (regex : Option Regex) (l : List ProcSample) :
    ∀ (acc : ℚ × Int × List AggRow) (r : AggRow),
      r ∈ (List.foldl (aggStep e s1 i regex) acc l).2.2 →
      r ∈ acc.2.2 ∨ ∃ p2 ∈ l, ∃ p1, lookup s1 p2.pid = some p1 ∧
        r = mkAggRow e i p1 p2 := by
  induction l with
  | nil => intro acc r hr; exact Or.inl (by simpa using hr)
  | cons p2 t ih =>
    intro acc r hr
    rw [List.foldl_cons] at hr
    rcases ih _ r hr with hacc | ⟨q2, hq2, q1, hq1, hrq⟩
    · cases h : lookup s1 p2.pid with
      | none => simp only [aggStep, h] at hacc; exact Or.inl hacc
      | some p1 =>
        by_cases hm : rowMatch regex p2
        · simp only [aggStep, h, hm, if_true, List.mem_append, List.mem_singleton] at hacc
          rcases hacc with hacc | hacc
          · exact Or.inl hacc
          · exact Or.inr ⟨p2, List.mem_cons_self p2 t, p1, h, hacc⟩
        · simp only [aggStep, h, hm, if_false] at hacc
          exact Or.inl hacc
    · exact Or.inr ⟨q2, List.mem_cons_of_mem p2 hq2, q1, hq1, hrq⟩

/-- With no filter, every diffable pid of the folded list contributes its row. -/
theorem foldl_aggStep_rows_none_mem (e : Env) (s1 : List ProcSample) (i : ℚ)
    (l : List ProcSample) :
    ∀ (acc : ℚ × Int × List AggRow) (p2 : ProcSample) (p1 : ProcSample),
      p2 ∈ l → lookup s1 p2.pid = some p1 →
      mkAggRow e i p1 p2 ∈ (List.foldl (aggStep e s1 i none) acc l).2.2 := by
  induction l with
  | nil => intro acc p2 p1 h; simp at h
  | cons q t ih =>
    intro acc p2 p1 hmem hl
    rw [List.foldl_cons]
    rcases List.mem_cons.mp hmem with rfl | hmem
    · obtain ⟨ext, hext⟩ := foldl_aggStep_rows_mono e s1 i none t (aggStep e s1 i none acc p2)
      rw [hext]
      simp [aggStep, hl, rowMatch]
    · exact ih _ p2 p1 hmem hl

/-- Stable descending insertion permutes to consing. -/
theorem insertRowDesc_perm (x : AggRow) (l : List AggRow) :
    (insertRowDesc x l).Perm (x :: l) := by
  induction l with
  | nil => simp [insertRowDesc]
  | cons y ys ih =>
    by_cases h : y.cpu_cores ≤ x.cpu_cores
    · simp [insertRowDesc, h]
    · simp only [insertRowDesc, h, if_false]
      exact ((ih.cons y).trans (List.Perm.swap x y ys))

/-- The row sort is a permutation. -/
theorem sortRowsDesc_perm (l : List AggRow) : (sortRowsDesc l).Perm l := by
  induction l with
  | nil => simp [sortRowsDesc]
  | cons x t ih =>
    have : sortRowsDesc (x :: t) = insertRowDesc x (sortRowsDesc t) := rfl
    rw [this]
    exact (insertRowDesc_perm x (sortRowsDesc t)).trans (ih.cons x)

/-- Dedup does not change the key finset. -/
theorem toFinset_dedup_list (l : List Int) : l.dedup.toFinset = l.toFinset := by
  ext a
  simp [List.mem_toFinset, List.mem_dedup]

/-- Length of the deduplicated key list is the key-set cardinality. -/
theorem length_dedup_eq_card (l : List Int) : l.dedup.length = l.toFinset.card := by
  rw [← toFinset_dedup_list, List.toFinset_card_of_nodup (List.nodup_dedup l)]

/-- The membership-delta count of aggregate is the cardinality of the key-set
difference. -/
theorem length_dedup_filter_not_mem (l1 l2 : List Int) :
    (l2.dedup.filter (fun k => decide (k ∉ l1.dedup))).length =
      (l2.toFinset \ l1.toFinset).card := by
  have hnd : (l2.dedup.filter (fun k => decide (k ∉ l1.dedup))).Nodup :=
    (List.nodup_dedup l2).filter _
  rw [← List.toFinset_card_of_nodup hnd]
  congr 1
  ext a
  simp [List.mem_toFinset, List.mem_filter, List.mem_dedup, Finset.mem_sdiff]

/-- total_cpu_cores of aggregate in closed form: the sum of core-equivalents
over the diffable pids of the second sample, independent of the regex. -/
theorem aggregate_total_cpu_eq (e : Env) (s1 s2 : List ProcSample) (i : ℚ)
    (pattern : Option String) (compiled : Option Regex) :
    (aggregate e s1 s2 i pattern compiled).total_cpu_cores =
      (s2.filterMap (fun p2 => (lookup s1 p2.pid).map
        (fun p1 => coreEquivalents e i p1 p2))).sum := by
  have h := (foldl_aggStep_totals e s1 i (resolveRegex e pattern compiled) s2
    ((0 : ℚ), (0 : Int), ([] : List AggRow))).1
  show (List.foldl (aggStep e s1 i (resolveRegex e pattern compiled))
    ((0 : ℚ), (0 : Int), ([] : List AggRow)) s2).1 = _
  simpa using h

/-- total_rss_bytes of aggregate in closed form: the sum of rss(T1) over the
diffable pids of the second sample, independent of the regex. -/
theorem aggregate_total_rss_eq (e : Env) (s1 s2 : List ProcSample) (i : ℚ)
    (pattern : Option String) (compiled : Option Regex) :
    (aggregate e s1 s2 i pattern compiled).total_rss_bytes =
      ((s2.filter (fun p2 => (lookup s1 p2.pid).isSome)).map
        ProcSample.rss_bytes).sum := by
  have h := (foldl_aggStep_totals e s1 i (resolveRegex e pattern compiled) s2
    ((0 : ℚ), (0 : Int), ([] : List AggRow))).2
  show (List.foldl (aggStep e s1 i (resolveRegex e pattern compiled))
    ((0 : ℚ), (0 : Int), ([] : List AggRow)) s2).2.1 = _
  simpa using h

/-- rows of aggregate: the sorted rows of the aggregation fold. -/
theorem aggregate_rows_eq (e : Env) (s1 s2 : List ProcSample) (i : ℚ)
    (pattern : Option String) (compiled : Option Regex) :
    (aggregate e s1 s2 i pattern compiled).rows =
      sortRowsDesc (List.foldl (aggStep e s1 i (resolveRegex e pattern compiled))
        ((0 : ℚ), (0 : Int), ([] : List AggRow)) s2).2.2 := rfl

/-- new_pids of aggregate, by definition. -/
theorem aggregate_new_pids_eq (e : Env) (s1 s2 : List ProcSample) (i : ℚ)
    (pattern : Option String) (compiled : Option Regex) :
    (aggregate e s1 s2 i pattern compiled).new_pids =
      ((s2.map ProcSample.pid).dedup.filter
        (fun k => decide (k ∉ (s1.map ProcSample.pid).dedup))).length := rfl

/-- died_pids of aggregate, by definition. -/
theorem aggregate_died_pids_eq (e : Env) (s1 s2 : List ProcSample) (i : ℚ)
    (pattern : Option String) (compiled : Option Regex) :
    (aggregate e s1 s2 i pattern compiled).died_pids =
      ((s1.map ProcSample.pid).dedup.filter
        (fun k => decide (k ∉ (s2.map ProcSample.pid).dedup))).length := rfl

/-- pid_count of aggregate, by definition. -/
theorem aggregate_pid_count_eq (e : Env) (s1 s2 : List ProcSample) (i : ℚ)
    (pattern : Option String) (compiled : Option Regex) :
    (aggregate e s1 s2 i pattern compiled).pid_count =
      (s2.map ProcSample.pid).dedup.length := rfl

/-- fork_rate_hz of aggregate, by definition. -/
theorem aggregate_fork_rate_eq (e : Env) (s1 s2 : List ProcSample) (i : ℚ)
    (pattern : Option String) (compiled : Option Regex) :
    (aggregate e s1 s2 i pattern compiled).fork_rate_hz =
      ((aggregate e s1 s2 i pattern compiled).new_pids : ℚ) / max i (1/1000000) := rfl

/-- With an empty first sample every fold step is skipped. -/
theorem foldl_aggStep_s1_nil (e : Env) (i : ℚ) (regex : Option Regex)
    (l : List ProcSample) :
    ∀ acc, List.foldl (aggStep e [] i regex) acc l = acc := by
  induction l with
  | nil => intro acc; rfl
  | cons p2 t ih =>
    intro acc
    rw [List.foldl_cons]
    have hstep : aggStep e [] i regex acc p2 = acc := by
      simp [aggStep, lookup, List.find?]
    rw [hstep]
    exact ih acc

/-- Resolving the regex from the cached UIState compilation gives the same
result as letting aggregate validate and compile the pattern itself. -/
theorem resolveRegex_cached (e : Env) (pat : Option String) :
    resolveRegex e pat (uistate_compile_pattern e pat) = resolveRegex e pat none := by
  cases pat with
  | none => rfl
  | some p =>
    by_cases h : (p != "" && validate_regex e p) = true
    · cases hc : e.compileRe p with
      | none => simp [uistate_compile_pattern, resolveRegex, h, hc]
      | some r => simp [uistate_compile_pattern, resolveRegex, h, hc]
    · have h' : (p != "" && validate_regex e p) = false := by
        simpa using h
      simp [uistate_compile_pattern, resolveRegex, h']

/-! Claim theorems. -/

/-- C1: the headline totals are invariant under the display filter — for every
pair of samples, interval and filter pattern (and any pre-compiled regex),
aggregate returns the same total_cpu_cores and total_rss_bytes as the
unfiltered aggregation; the pattern only selects rows. -/
theorem c1_totals_filter_invariant (e : Env) (s1 s2 : List ProcSample) (i : ℚ)
    (pattern : Option String) (compiled : Option Regex) :
    (aggregate e s1 s2 i pattern compiled).total_cpu_cores =
      (aggregate e s1 s2 i none none).total_cpu_cores ∧
    (aggregate e s1 s2 i pattern compiled).total_rss_bytes =
      (aggregate e s1 s2 i none none).total_rss_bytes ∧
    (aggregate e s1 s2 i pattern compiled).pid_count =
      (aggregate e s1 s2 i none none).pid_count ∧
    (aggregate e s1 s2 i pattern compiled).new_pids =
      (aggregate e s1 s2 i none none).new_pids ∧
    (aggregate e s1 s2 i pattern compiled).died_pids =
      (aggregate e s1 s2 i none none).died_pids ∧
    (aggregate e s1 s2 i pattern compiled).fork_rate_hz =
      (aggregate e s1 s2 i none none).fork_rate_hz := by
  refine ⟨?_, ?_, rfl, rfl, rfl, rfl⟩
  · rw [aggregate_total_cpu_eq, aggregate_total_cpu_eq]
  · rw [aggregate_total_rss_eq, aggregate_total_rss_eq]

/-- C2 counterexample: the claim says total_rss_bytes sums resident memory
over all pids present in T1 including pids absent from T0; but for T0 = ∅ and
T1 = one pid with rss 100 the engine reports 0, not the T1 sum 100. -/
theorem c2_counterexample :
    (aggregate envA [] [psRss 7 100] 1 none none).total_rss_bytes ≠
      (([psRss 7 100].map ProcSample.rss_bytes).sum) := by
  decide

/-- C2 amended: total_rss_bytes sums rss(T1) only over the pids present in
BOTH samples (the diffable pids), exactly like total_cpu_cores sums
core-equivalents over the diffable pids. -/
theorem c2_totals_over_diffable (e : Env) (s1 s2 : List ProcSample) (i : ℚ)
    (pattern : Option String) (compiled : Option Regex) :
    (aggregate e s1 s2 i pattern compiled).total_rss_bytes =
      ((s2.filter (fun p2 => (lookup s1 p2.pid).isSome)).map
        ProcSample.rss_bytes).sum ∧
    (aggregate e s1 s2 i pattern compiled).total_cpu_cores =
      (s2.filterMap (fun p2 => (lookup s1 p2.pid).map
        (fun p1 => coreEquivalents e i p1 p2))).sum :=
  ⟨aggregate_total_rss_eq e s1 s2 i pattern compiled,
   aggregate_total_cpu_eq e s1 s2 i pattern compiled⟩

/-- C5 counterexample: the claim asserts zero appeared/vanished counts
whenever either input sample is empty; but with T0 = ∅ and T1 = one pid the
appeared count is 1, not 0. -/
theorem c5_counterexample :
    (aggregate envA [] [psRss 7 100] 1 none none).new_pids ≠ 0 := by
  decide

/-- C5 amended: with either input sample empty, aggregate still returns a
well-formed snapshot (total functions never raise in this model) with zero
totals and an empty row list; the vanished count is zero when T0 is empty and
the appeared count and pid count are zero when T1 is empty, so both counts
are zero when both samples are empty. -/
theorem c5_empty_input_snapshot :
    (∀ (e : Env) (s2 : List ProcSample) (i : ℚ) (pattern : Option String)
       (compiled : Option Regex),
      (aggregate e [] s2 i pattern compiled).total_cpu_cores = 0 ∧
      (aggregate e [] s2 i pattern compiled).total_rss_bytes = 0 ∧
      (aggregate e [] s2 i pattern compiled).rows = [] ∧
      (aggregate e [] s2 i pattern compiled).died_pids = 0) ∧
    (∀ (e : Env) (s1 : List ProcSample) (i : ℚ) (pattern : Option String)
       (compiled : Option Regex),
      (aggregate e s1 [] i pattern compiled).total_cpu_cores = 0 ∧
      (aggregate e s1 [] i pattern compiled).total_rss_bytes = 0 ∧
      (aggregate e s1 [] i pattern compiled).rows = [] ∧
      (aggregate e s1 [] i pattern compiled).new_pids = 0 ∧
      (aggregate e s1 [] i pattern compiled).pid_count = 0) ∧
    (∀ (e : Env) (i : ℚ) (pattern : Option String) (compiled : Option Regex),
      (aggregate e [] [] i pattern compiled).new_pids = 0 ∧
      (aggregate e [] [] i pattern compiled).died_pids = 0) := by
  refine ⟨?_, ?_, ?_⟩
  · intro e s2 i pattern compiled
    have hfold := foldl_aggStep_s1_nil e i (resolveRegex e pattern compiled) s2
      ((0 : ℚ), (0 : Int), ([] : List AggRow))
    refine ⟨?_, ?_, ?_, rfl⟩
    · show (List.foldl (aggStep e [] i (resolveRegex e pattern compiled))
        ((0 : ℚ), (0 : Int), ([] : List AggRow)) s2).1 = 0
      rw [hfold]
    · show (List.foldl (aggStep e [] i (resolveRegex e pattern compiled))
        ((0 : ℚ), (0 : Int), ([] : List AggRow)) s2).2.1 = 0
      rw [hfold]
    · rw [aggregate_rows_eq, hfold]
      rfl
  · intro e s1 i pattern compiled
    exact ⟨rfl, rfl, rfl, rfl, rfl⟩
  · intro e i pattern compiled
    exact ⟨rfl, rfl⟩

/-- C3: every row of an aggregation carries the CPU of a pid present in both
samples, computed as (max(0, ticks(T1)-ticks(T0)) / CLK_TCK) / interval, hence
never negative (for a positive clock rate and an interval of at least the
1e-6 clamp); concretely, ticks 200 → 280 one second apart at 100 ticks/sec
give exactly 0.8 core-equivalents. -/
theorem c3_per_process_cpu :
    (∀ (e : Env) (s1 s2 : List ProcSample) (i : ℚ) (pattern : Option String)
       (compiled : Option Regex),
      0 < e.clk → (1/1000000 : ℚ) ≤ i →
      ∀ r ∈ (aggregate e s1 s2 i pattern compiled).rows,
        0 ≤ r.cpu_cores ∧
        ∃ p2 ∈ s2, ∃ p1, lookup s1 p2.pid = some p1 ∧ r.pid = p2.pid ∧
          r.cpu_cores =
            (((max 0 (p2.cpu_ticks - p1.cpu_ticks) : Int) : ℚ) / e.clk) / i) ∧
    (aggregate envA [psT0] [psT1] 1 none none).rows.map AggRow.cpu_cores = [4/5] := by
  constructor
  · intro e s1 s2 i pattern compiled hclk hi r hr
    rw [aggregate_rows_eq] at hr
    have hr' := (sortRowsDesc_perm _).mem_iff.mp hr
    rcases foldl_aggStep_rows_mem e s1 i (resolveRegex e pattern compiled) s2 _ r hr' with
      habs | ⟨p2, hp2, p1, hp1, hrow⟩
    · simp at habs
    · have hmax : max i (1/1000000 : ℚ) = i := max_eq_left hi
      subst hrow
      constructor
      · show (0:ℚ) ≤ coreEquivalents e i p1 p2
        unfold coreEquivalents
        apply div_nonneg (div_nonneg ?_ hclk.le)
        · exact le_trans (by norm_num) (le_max_right i (1/1000000))
        · exact Int.cast_nonneg.mpr (le_max_left 0 _)
      · refine ⟨p2, hp2, p1, hp1, rfl, ?_⟩
        show coreEquivalents e i p1 p2 = _
        unfold coreEquivalents
        rw [hmax]
  · simp [aggregate, aggregateWithRegex, resolveRegex, aggStep, lookup, rowMatch,
          mkAggRow, coreEquivalents, ageSeconds, sortRowsDesc, insertRowDesc,
          envA, psT0, psT1]
    norm_num

/-- C4: aggregate reports new_pids as the cardinality of pids(T1) minus
pids(T0) and died_pids as the cardinality of pids(T0) minus pids(T1), with
fork_rate_hz = new_pids / interval (for intervals of at least the 1e-6
clamp); the counting identity pids(T1) size = pids(T0) size + new - died
holds whenever both samples are non-empty; and the concrete scenario
T0 = {1,2}, T1 = {2,3}, interval 2s gives new = 1, died = 1, fork rate 0.5/s. -/
theorem c4_membership_delta :
    (∀ (e : Env) (s1 s2 : List ProcSample) (i : ℚ) (pattern : Option String)
       (compiled : Option Regex),
      (aggregate e s1 s2 i pattern compiled).new_pids =
        (keysFinset s2 \ keysFinset s1).card ∧
      (aggregate e s1 s2 i pattern compiled).died_pids =
        (keysFinset s1 \ keysFinset s2).card) ∧
    (∀ (e : Env) (s1 s2 : List ProcSample) (i : ℚ) (pattern : Option String)
       (compiled : Option Regex),
      (1/1000000 : ℚ) ≤ i →
      (aggregate e s1 s2 i pattern compiled).fork_rate_hz =
        ((aggregate e s1 s2 i pattern compiled).new_pids : ℚ) / i) ∧
    (∀ (e : Env) (s1 s2 : List ProcSample) (i : ℚ) (pattern : Option String)
       (compiled : Option Regex),
      s1 ≠ [] → s2 ≠ [] →
      ((aggregate e s1 s2 i pattern compiled).pid_count : ℤ) =
        ((keysFinset s1).card : ℤ) +
          (aggregate e s1 s2 i pattern compiled).new_pids -
          (aggregate e s1 s2 i pattern compiled).died_pids) ∧
    ((aggregate envA [psRss 1 0, psRss 2 0] [psRss 2 0, psRss 3 0] 2 none none).new_pids = 1 ∧
     (aggregate envA [psRss 1 0, psRss 2 0] [psRss 2 0, psRss 3 0] 2 none none).died_pids = 1 ∧
     (aggregate envA [psRss 1 0, psRss 2 0] [psRss 2 0, psRss 3 0] 2 none none).fork_rate_hz = 1/2) := by
  refine ⟨?_, ?_, ?_, ?_⟩
  · intro e s1 s2 i pattern compiled
    constructor
    · rw [aggregate_new_pids_eq]
      simp only [keysFinset]
      exact length_dedup_filter_not_mem _ _
    · rw [aggregate_died_pids_eq]
      simp only [keysFinset]
      exact length_dedup_filter_not_mem _ _
  · intro e s1 s2 i pattern compiled hi
    rw [aggregate_fork_rate_eq, max_eq_left hi]
  · intro e s1 s2 i pattern compiled _ _
    have hp : (aggregate e s1 s2 i pattern compiled).pid_count =
        (keysFinset s2).card := by
      rw [aggregate_pid_count_eq]
      simp only [keysFinset]
      exact length_dedup_eq_card _
    have hn : (aggregate e s1 s2 i pattern compiled).new_pids =
        (keysFinset s2 \ keysFinset s1).card := by
      rw [aggregate_new_pids_eq]
      simp only [keysFinset]
      exact length_dedup_filter_not_mem _ _
    have hd : (aggregate e s1 s2 i pattern compiled).died_pids =
        (keysFinset s1 \ keysFinset s2).card := by
      rw [aggregate_died_pids_eq]
      simp only [keysFinset]
      exact length_dedup_filter_not_mem _ _
    have hu1 := Finset.card_sdiff_add_card (keysFinset s2) (keysFinset s1)
    have hu2 := Finset.card_sdiff_add_card (keysFinset s1) (keysFinset s2)
    have hcomm : (keysFinset s2 ∪ keysFinset s1).card =
        (keysFinset s1 ∪ keysFinset s2).card := by rw [Finset.union_comm]
    rw [hp, hn, hd]
    omega
  · refine ⟨by decide, by decide, ?_⟩
    simp [aggregate, aggregateWithRegex, resolveRegex, aggStep, lookup, rowMatch,
          coreEquivalents, ageSeconds, sortRowsDesc, insertRowDesc, envA, psRss]
    norm_num

/-- C3 witness: the general statement applied at the concrete pid-100 data. -/
theorem c3_witness : 0 ≤ (mkAggRow envA 1 psT0 psT1).cpu_cores :=
  (c3_per_process_cpu.1 envA [psT0] [psT1] 1 none none (by norm_num [envA])
    (by norm_num) (mkAggRow envA 1 psT0 psT1)
    (by rw [show (aggregate envA [psT0] [psT1] 1 none none).rows =
          [mkAggRow envA 1 psT0 psT1] from rfl]
        exact List.mem_singleton_self _)).1

/-- C4 witness: the general statements applied at the concrete T0 = {1,2},
T1 = {2,3} scenario with a 2-second interval. -/
theorem c4_witness :
    (aggregate envA [psRss 1 0, psRss 2 0] [psRss 2 0, psRss 3 0] 2 none none).fork_rate_hz =
      ((aggregate envA [psRss 1 0, psRss 2 0] [psRss 2 0, psRss 3 0] 2 none none).new_pids : ℚ) / 2 ∧
    ((aggregate envA [psRss 1 0, psRss 2 0] [psRss 2 0, psRss 3 0] 2 none none).pid_count : ℤ) =
      ((keysFinset [psRss 1 0, psRss 2 0]).card : ℤ) +
        (aggregate envA [psRss 1 0, psRss 2 0] [psRss 2 0, psRss 3 0] 2 none none).new_pids -
        (aggregate envA [psRss 1 0, psRss 2 0] [psRss 2 0, psRss 3 0] 2 none none).died_pids :=
  ⟨c4_membership_delta.2.1 envA [psRss 1 0, psRss 2 0] [psRss 2 0, psRss 3 0] 2 none none
      (by norm_num),
   c4_membership_delta.2.2.1 envA [psRss 1 0, psRss 2 0] [psRss 2 0, psRss 3 0] 2 none none
      (by decide) (by decide)⟩

/-- C6: a pattern that fails validation (dangerous nesting, too many
alternations, or non-compiling) makes aggregate behave exactly as with no
filter — the whole snapshot is equal to the unfiltered one and every diffable
pid contributes a row — and validation never raises (it is a total Bool). -/
theorem c6_invalid_pattern_no_filter (e : Env) (s1 s2 : List ProcSample) (i : ℚ)
    (p : String) :
    validate_regex e p = false →
    aggregate e s1 s2 i (some p) none = aggregate e s1 s2 i none none ∧
    ∀ p2 ∈ s2, ∀ p1, lookup s1 p2.pid = some p1 →
      ∃ r ∈ (aggregate e s1 s2 i (some p) none).rows, r.pid = p2.pid := by
  intro hv
  have hreg : resolveRegex e (some p) none = none := by
    simp [resolveRegex, hv]
  have hagg : aggregate e s1 s2 i (some p) none = aggregate e s1 s2 i none none := by
    show aggregateWithRegex e s1 s2 i (resolveRegex e (some p) none) =
      aggregateWithRegex e s1 s2 i (resolveRegex e none none)
    rw [hreg]
    rfl
  refine ⟨hagg, ?_⟩
  intro p2 hp2 p1 hp1
  refine ⟨mkAggRow e i p1 p2, ?_, rfl⟩
  rw [aggregate_rows_eq, hreg]
  exact (sortRowsDesc_perm _).mem_iff.mpr
    (foldl_aggStep_rows_none_mem e s1 i s2 _ p2 p1 hp2 hp1)

/-- C6 witness: the ReDoS-indicator pattern (a+)+ fails validation even under
a compiler that always succeeds, and aggregation with it equals the
unfiltered aggregation. -/
theorem c6_witness :
    aggregate envB [psT0] [psT1] 1 (some "(a+)+") none =
      aggregate envB [psT0] [psT1] 1 none none :=
  (c6_invalid_pattern_no_filter envB [psT0] [psT1] 1 "(a+)+" (by decide)).1

/-- C7 counterexample: on a system where scontrol returns nothing but pid 42's
cgroup file names job 777, the environment path (SLURM_JOB_ID=777, no explicit
job id or root pid) returns the empty scontrol result, while the explicit
job-id path (b) for the same job falls back to the cgroup scan and finds 42 —
so the environment path does not repeat the full path (b). -/
theorem c7_counterexample :
    resolve_target_pids sysB none none none = [] ∧
    resolve_target_pids sysB (some "777") none none = [42] := by
  exact ⟨by decide, by decide⟩

/-- C7 amended: with no explicit job id or root pid and a truthy
SLURM_JOB_ID, resolve_target_pids returns the scheduler query result
directly — without the cgroup-membership fallback of the explicit job-id
path. -/
theorem c7_env_path_no_fallback (sys : Sys) (j : String) :
    sys.envJob = some j → j ≠ "" →
    resolve_target_pids sys none none none =
      sys.scontrol (match sys.envStep with
        | some es => if es == "" then j else j ++ "." ++ es
        | none => j) := by
  intro hj hne
  show resolveTargetEnvPath sys = _
  simp [resolveTargetEnvPath, hj, hne]

/-- C7 witness: the amended statement applied on the concrete system sysB. -/
theorem c7_witness :
    resolve_target_pids sysB none none none =
      sysB.scontrol (match sysB.envStep with
        | some es => if es == "" then "777" else "777" ++ "." ++ es
        | none => "777") :=
  c7_env_path_no_fallback sysB "777" rfl (by decide)

/-- C8: when a cgroup memory reading is present in a snapshot the reported
memory figure (both in the one-shot printer and the curses memory bar) is the
cgroup value flagged as cgroup-sourced; when absent it is the summed RSS
flagged as the RSS sum; concretely a 4 GiB cgroup reading wins over a
4.6 GiB RSS sum. -/
theorem c8_memory_sourcing :
    (∀ (agg : Aggregates) (c : Int), agg.cgroup_mem_bytes = some c →
      print_text_snapshot_mem_used agg = c ∧
      print_text_snapshot_cgroup_flag agg = true ∧
      draw_mem_used_bar agg.cgroup_mem_bytes agg = c ∧
      draw_mem_source_label agg.cgroup_mem_bytes = "[cgroup]") ∧
    (∀ agg : Aggregates, agg.cgroup_mem_bytes = none →
      print_text_snapshot_mem_used agg = agg.total_rss_bytes ∧
      print_text_snapshot_cgroup_flag agg = false ∧
      draw_mem_used_bar agg.cgroup_mem_bytes agg = agg.total_rss_bytes ∧
      draw_mem_source_label agg.cgroup_mem_bytes = "[sum RSS]") ∧
    (print_text_snapshot_mem_used agg4GiB = 4294967296 ∧
     print_text_snapshot_cgroup_flag agg4GiB = true ∧
     agg4GiB.total_rss_bytes = 4939212390) := by
  refine ⟨?_, ?_, by decide, by decide, by decide⟩
  · intro agg c h
    simp [print_text_snapshot_mem_used, print_text_snapshot_cgroup_flag,
          draw_mem_used_bar, draw_mem_source_label, h]
  · intro agg h
    simp [print_text_snapshot_mem_used, print_text_snapshot_cgroup_flag,
          draw_mem_used_bar, draw_mem_source_label, h]

/-- C8 witness: the cgroup-present case applied at the concrete 4 GiB
snapshot. -/
theorem c8_witness :
    print_text_snapshot_mem_used agg4GiB = 4294967296 ∧
    print_text_snapshot_cgroup_flag agg4GiB = true ∧
    draw_mem_used_bar agg4GiB.cgroup_mem_bytes agg4GiB = 4294967296 ∧
    draw_mem_source_label agg4GiB.cgroup_mem_bytes = "[cgroup]" :=
  c8_memory_sourcing.1 agg4GiB 4294967296 rfl

/-- C9 counterexample: for the same samples, interval and (absent) pattern,
the one-shot snapshot carries no cgroup memory reading (memory sourced from
the RSS sum) while the interactive cycle's snapshot carries one — the two
snapshots do not have identical memory sourcing. -/
theorem c9_counterexample :
    ((show_job_summary_once envA sysC none none (some 100) none 1).2.map
      (fun a => a.cgroup_mem_bytes.isSome)) = some false ∧
    (draw_cycle_agg envA diC false none [psT0] [psT1] 1).cgroup_mem_bytes.isSome = true := by
  exact ⟨by decide, by decide⟩

/-- C9 amended: the one-shot variant runs one cycle body through the same
aggregate as the interactive loop, so for the same samples, interval (at
least the UI's 0.1 s clamp) and pattern, the snapshots agree on totals,
counts, fork rate and rows — but the one-shot snapshot never carries a cgroup
memory reading, while the interactive cycle attaches its cgroup reading and
CPU allocation after aggregation, so memory sourcing can differ. -/
theorem c9_same_aggregation (e : Env) (di : DrawInputs) (pattern : Option String)
    (s1 s2 : List ProcSample) (i : ℚ) :
    (1/10 : ℚ) ≤ i →
    ((draw_cycle_agg e di false pattern s1 s2 i).total_cpu_cores =
       (aggregate e s1 s2 i pattern none).total_cpu_cores ∧
     (draw_cycle_agg e di false pattern s1 s2 i).total_rss_bytes =
       (aggregate e s1 s2 i pattern none).total_rss_bytes ∧
     (draw_cycle_agg e di false pattern s1 s2 i).pid_count =
       (aggregate e s1 s2 i pattern none).pid_count ∧
     (draw_cycle_agg e di false pattern s1 s2 i).new_pids =
       (aggregate e s1 s2 i pattern none).new_pids ∧
     (draw_cycle_agg e di false pattern s1 s2 i).died_pids =
       (aggregate e s1 s2 i pattern none).died_pids ∧
     (draw_cycle_agg e di false pattern s1 s2 i).fork_rate_hz =
       (aggregate e s1 s2 i pattern none).fork_rate_hz ∧
     (draw_cycle_agg e di false pattern s1 s2 i).rows =
       (aggregate e s1 s2 i pattern none).rows) ∧
    (aggregate e s1 s2 i pattern none).cgroup_mem_bytes = none ∧
    (∀ (sys : Sys) (jobid stepid : Option String) (proot : Option Int),
      resolve_target_pids sys jobid stepid proot ≠ [] →
      sys.sampleT0 (resolve_target_pids sys jobid stepid proot) = s1 →
      sys.sampleT1 (resolve_target_pids sys jobid stepid proot) = s2 →
      s1 ≠ [] → s2 ≠ [] →
      show_job_summary_once e sys jobid stepid proot pattern i =
        (0, some (aggregate e s1 s2 i pattern none))) := by
  intro hi
  have hmax : max (1/10 : ℚ) i = i := max_eq_right hi
  have hagg : aggregate e s1 s2 (max (1/10 : ℚ) i) pattern
      (uistate_compile_pattern e pattern) = aggregate e s1 s2 i pattern none := by
    rw [hmax]
    show aggregateWithRegex e s1 s2 i
        (resolveRegex e pattern (uistate_compile_pattern e pattern)) =
      aggregateWithRegex e s1 s2 i (resolveRegex e pattern none)
    rw [resolveRegex_cached]
  refine ⟨⟨?_, ?_, ?_, ?_, ?_, ?_, ?_⟩, rfl, ?_⟩
  · show (aggregate e s1 s2 (max (1/10 : ℚ) i) pattern
      (uistate_compile_pattern e pattern)).total_cpu_cores = _
    exact congrArg Aggregates.total_cpu_cores hagg
  · show (aggregate e s1 s2 (max (1/10 : ℚ) i) pattern
      (uistate_compile_pattern e pattern)).total_rss_bytes = _
    exact congrArg Aggregates.total_rss_bytes hagg
  · show (aggregate e s1 s2 (max (1/10 : ℚ) i) pattern
      (uistate_compile_pattern e pattern)).pid_count = _
    exact congrArg Aggregates.pid_count hagg
  · show (aggregate e s1 s2 (max (1/10 : ℚ) i) pattern
      (uistate_compile_pattern e pattern)).new_pids = _
    exact congrArg Aggregates.new_pids hagg
  · show (aggregate e s1 s2 (max (1/10 : ℚ) i) pattern
      (uistate_compile_pattern e pattern)).died_pids = _
    exact congrArg Aggregates.died_pids hagg
  · show (aggregate e s1 s2 (max (1/10 : ℚ) i) pattern
      (uistate_compile_pattern e pattern)).fork_rate_hz = _
    exact congrArg Aggregates.fork_rate_hz hagg
  · show (aggregate e s1 s2 (max (1/10 : ℚ) i) pattern
      (uistate_compile_pattern e pattern)).rows = _
    exact congrArg Aggregates.rows hagg
  · intro sys jobid stepid proot hres hs1 hs2 h1 h2
    simp only [show_job_summary_once]
    rw [if_neg hres, hs1, hs2, if_neg (not_or.mpr ⟨h1, h2⟩)]

/-- C9 witness: the amended statement applied at the concrete single-process
system, with the concrete interactive-cycle inputs. -/
theorem c9_witness :
    (draw_cycle_agg envA diC false none [psT0] [psT1] 1).rows =
      (aggregate envA [psT0] [psT1] 1 none none).rows ∧
    show_job_summary_once envA sysC none none (some 100) none 1 =
      (0, some (aggregate envA [psT0] [psT1] 1 none none)) :=
  ⟨(c9_same_aggregation envA diC none [psT0] [psT1] 1 (by norm_num)).1.2.2.2.2.2.2,
   (c9_same_aggregation envA diC none [psT0] [psT1] 1 (by norm_num)).2.2 sysC none none
     (some 100) (by decide) rfl rfl (by decide) (by decide)⟩

/-- C10: a supplied (truthy) root pid whose /proc entry no longer exists
resolves to the empty pid set — the dead root itself is not returned — and
the one-shot variant then reports the no-target condition with exit code 2
and prints nothing. -/
theorem c10_dead_root_empty (e : Env) (sys : Sys) (r : Int)
    (jobid stepid pattern : Option String) (i : ℚ) :
    r ≠ 0 → sys.procExists r = false →
    resolve_target_pids sys jobid stepid (some r) = [] ∧
    show_job_summary_once e sys jobid stepid (some r) pattern i = (2, none) := by
  intro hr hp
  have h1 : descendants_of sys r true = [] := by
    simp [descendants_of, hp]
  have h2 : resolve_target_pids sys jobid stepid (some r) = [] := by
    simp [resolve_target_pids, hr, h1]
  exact ⟨h2, by simp [show_job_summary_once, h2]⟩

/-- C10 witness: the statement applied on the all-processes-gone system. -/
theorem c10_witness :
    resolve_target_pids sysD none none (some 7) = [] ∧
    show_job_summary_once envA sysD none none (some 7) none 1 = (2, none) :=
  c10_dead_root_empty envA sysD 7 none none none 1 (by decide) rfl

end Rjobtop

